import Mathlib

/-!
Verification of the tool-call orchestration and conversation-history
subsystem of `openai-tools-core`.

The definitions below are a shallow embedding of the Python sources:

* `src/core/history/manager.py` (`HistoryManager`): conversation storage
  with an in-memory cache and a one-JSON-file-per-conversation disk
  backing, both modelled as association lists keyed by conversation id.
* `src/core/history/models.py` is imported by the manager but is not part
  of the provided sources; the `Message` / `Conversation` /
  `ConversationSummary` records and their JSON (de)serialization are
  modelled from the spec (§3 data model, §6 persisted conversation file).
* `src/core/tools.py` / `src/bot/projects.py`: the project store.
* `src/bot/handlers.py`: the legacy orchestrator `process_message`.
* the tool service (`execute_tool_call`, `process_tool_calls`) whose tests
  live under `tests/ai_tools_core/services/test_tool_service.py`; its
  implementation is not among the provided sources and is modelled from
  the spec (§4.4 step 5, §7) and from the history-entry helpers of
  `src/core/services/openai_message_service.py`.
* `src/core/services/openai_service.py`: `count_tokens` and
  `limit_messages_by_tokens`.

Python `datetime` values are modelled as abstract instants (`Nat`); the
ISO-8601 rendering used on disk is injective on instants, so it is
modelled as the instant itself tagged as a JSON number.  The tokenizer of
`openai_service` is an arbitrary function `String → Nat`.
-/

namespace AIToolsCore

/-- JSON values as stored in the one-file-per-conversation backing.
Objects keep their key order (Python dicts preserve insertion order). -/
inductive Json where
  | str : String → Json
  | num : Nat → Json
  | arr : List Json → Json
  | obj : List (String × Json) → Json
deriving Repr

/-- Field lookup on a JSON object (`data["k"]` / `data.get("k")`). -/
def Json.lookup : Json → String → Option Json
  | .obj kvs, k => kvs.lookup k
  | _, _ => none

/-- Expect a JSON string. -/
def Json.asStr : Json → Option String
  | .str s => some s
  | _ => none

/-- Expect a JSON number (a modelled timestamp). -/
def Json.asNum : Json → Option Nat
  | .num n => some n
  | _ => none

/-- Modelled from the spec (§3): the `MessageRole` enum of
`core/history/models.py`, which is not among the provided sources. -/
inductive MessageRole where
  | system
  | user
  | assistant
  | tool
deriving DecidableEq, Repr

/-- The string value of a role (`msg.role.value`, §6: "role (string enum
value)"). -/
def MessageRole.value : MessageRole → String
  | .system => "system"
  | .user => "user"
  | .assistant => "assistant"
  | .tool => "tool"

/-- Parsing a role string back to the enum (`MessageRole(role)`); an
unknown string raises in Python, modelled as `none`. -/
def MessageRole.ofString (s : String) : Option MessageRole :=
  if s = "system" then some .system
  else if s = "user" then some .user
  else if s = "assistant" then some .assistant
  else if s = "tool" then some .tool
  else none

/-- Modelled from the spec (§3): a `Message` of `core/history/models.py`
(not among the provided sources): role, content, open string-keyed
metadata, and a generated timestamp. -/
structure Message where
  role : MessageRole
  content : String
  metadata : List (String × String)
  timestamp : Nat
deriving DecidableEq, Repr

/-- Modelled from the spec (§3): a `Conversation` of
`core/history/models.py` (not among the provided sources). -/
structure Conversation where
  id : String
  user_id : String
  messages : List Message
  created_at : Nat
  updated_at : Nat
  metadata : List (String × String)
deriving DecidableEq, Repr

/-- Serialize an open string-keyed metadata map (`model_dump`). -/
def metaToJson (m : List (String × String)) : Json :=
  .obj (m.map fun kv => (kv.1, .str kv.2))

/-- Parse the entries of a serialized metadata object. -/
def metaEntriesOf : List (String × Json) → Option (List (String × String))
  | [] => some []
  | (k, .str v) :: rest => (metaEntriesOf rest).map fun l => (k, v) :: l
  | _ => none

/-- Parse a serialized metadata map. -/
def metaOfJson : Json → Option (List (String × String))
  | .obj kvs => metaEntriesOf kvs
  | _ => none

/-- Modelled from the spec (§6): serialization of one message inside the
persisted conversation file (`model_dump(mode="json")` on a `Message`). -/
def Message.toJson (m : Message) : Json :=
  .obj [("role", .str m.role.value),
        ("content", .str m.content),
        ("metadata", metaToJson m.metadata),
        ("timestamp", .num m.timestamp)]

/-- Modelled from the spec (§6): validation of one serialized message
(part of `Conversation.model_validate`). -/
def Message.ofJson (j : Json) : Option Message :=
  (j.lookup "role").bind fun rj =>
  rj.asStr.bind fun rs =>
  (MessageRole.ofString rs).bind fun role =>
  (j.lookup "content").bind fun cj =>
  cj.asStr.bind fun content =>
  (j.lookup "metadata").bind fun mj =>
  (metaOfJson mj).bind fun md =>
  (j.lookup "timestamp").bind fun tj =>
  tj.asNum.map fun ts => ⟨role, content, md, ts⟩

/-- Modelled from the spec (§6): the persisted conversation file, a JSON
object with fields `id, user_id, metadata, created_at, updated_at,
messages[]` (`Conversation.model_dump(mode="json")`). -/
def Conversation.toJson (c : Conversation) : Json :=
  .obj [("id", .str c.id),
        ("user_id", .str c.user_id),
        ("metadata", metaToJson c.metadata),
        ("created_at", .num c.created_at),
        ("updated_at", .num c.updated_at),
        ("messages", .arr (c.messages.map Message.toJson))]

/-- Parse the items of a serialized message array, failing on the first
malformed item. -/
def msgsListOf : List Json → Option (List Message)
  | [] => some []
  | j :: rest =>
    (Message.ofJson j).bind fun m => (msgsListOf rest).map fun l => m :: l

/-- Parse a serialized message array. -/
def msgsOfJson : Json → Option (List Message)
  | .arr l => msgsListOf l
  | _ => none

/-- Modelled from the spec (§6): `Conversation.model_validate` on a loaded
conversation file; any malformed field yields `none` (the manager treats
a validation error as "not found"). -/
def Conversation.ofJson (j : Json) : Option Conversation :=
  (j.lookup "id").bind fun ij =>
  ij.asStr.bind fun id =>
  (j.lookup "user_id").bind fun uj =>
  uj.asStr.bind fun uid =>
  (j.lookup "metadata").bind fun mj =>
  (metaOfJson mj).bind fun md =>
  (j.lookup "created_at").bind fun cj =>
  cj.asNum.bind fun ca =>
  (j.lookup "updated_at").bind fun upj =>
  upj.asNum.bind fun ua =>
  (j.lookup "messages").bind fun msj =>
  (msgsOfJson msj).map fun msgs =>
  ⟨id, uid, msgs, ca, ua, md⟩

/-- Round-trip of metadata entries. -/
theorem metaEntriesOf_map (m : List (String × String)) :
    metaEntriesOf (m.map fun kv => (kv.1, .str kv.2)) = some m := by
  induction m with
  | nil => rfl
  | cons kv rest ih => simp [metaEntriesOf, ih]

/-- Round-trip of a metadata map. -/
theorem metaOfJson_metaToJson (m : List (String × String)) :
    metaOfJson (metaToJson m) = some m := by
  simp [metaOfJson, metaToJson, metaEntriesOf_map]

/-- Role strings parse back to the role they came from. -/
theorem MessageRole.ofString_value (r : MessageRole) :
    MessageRole.ofString r.value = some r := by
  cases r <;> rfl

/-- Round-trip of one message through its serialized form. -/
theorem Message.roundtrip_json (m : Message) :
    Message.ofJson m.toJson = some m := by
  simp [Message.ofJson, Message.toJson, Json.lookup, List.lookup, Json.asStr,
    Json.asNum, MessageRole.ofString_value, metaOfJson_metaToJson]

/-- Round-trip of a message list through its serialized form. -/
theorem msgsOfJson_map (l : List Message) :
    msgsOfJson (.arr (l.map Message.toJson)) = some l := by
  induction l with
  | nil => rfl
  | cons m rest ih =>
    simp only [msgsOfJson, msgsListOf, List.map_cons] at ih ⊢
    simp [Message.roundtrip_json, ih]

/-- Round-trip of a whole conversation through its persisted JSON form. -/
theorem Conversation.roundtrip_conv_json (c : Conversation) :
    Conversation.ofJson c.toJson = some c := by
  simp [Conversation.ofJson, Conversation.toJson, Json.lookup, List.lookup,
    Json.asStr, Json.asNum, metaOfJson_metaToJson, msgsOfJson_map]

/-- Python dict assignment `d[k] = v` on a string-keyed dict, modelled on
an association list: the key now maps to `v` and all other keys are
untouched. -/
def setAssoc {α : Type} (l : List (String × α)) (k : String) (v : α) :
    List (String × α) :=
  (k, v) :: l.filter fun kv => kv.1 != k

/-- `HistoryManager` state (`src/core/history/manager.py`): the in-memory
cache `_active_conversations` and the history directory of
one-JSON-file-per-conversation, both keyed by conversation id. -/
structure HistoryManager where
  cache : List (String × Conversation)
  disk : List (String × Json)

/-- `HistoryManager._save_conversation`: serialize and write the file
named by the conversation's id (the disk write is assumed to succeed;
a write failure is logged and dropped, leaving the disk unchanged). -/
def saveConversation (c : Conversation) (st : HistoryManager) :
    HistoryManager :=
  { st with disk := setAssoc st.disk c.id c.toJson }

/-- `HistoryManager.create_conversation`: build a conversation with a
generated id (passed in as `cid`, modelling `uuid4`), an empty message
list and `created_at = updated_at = now`, cache it and persist it. -/
def create_conversation (cid user_id : String)
    (metadata : List (String × String)) (now : Nat) (st : HistoryManager) :
    HistoryManager :=
  let c : Conversation :=
    { id := cid, user_id := user_id, messages := [], created_at := now,
      updated_at := now, metadata := metadata }
  saveConversation c { st with cache := setAssoc st.cache cid c }

/-- `HistoryManager.get_conversation`: cache first, then the disk file;
a missing file or a failed validation yields `none`; a successful disk
load populates the cache.  Returns the conversation together with the
manager state after the call. -/
def get_conversation (cid : String) (st : HistoryManager) :
    Option Conversation × HistoryManager :=
  match st.cache.lookup cid with
  | some c => (some c, st)
  | none =>
    match st.disk.lookup cid with
    | none => (none, st)
    | some j =>
      match Conversation.ofJson j with
      | some c => (some c, { st with cache := setAssoc st.cache cid c })
      | none => (none, st)

/-- `HistoryManager.add_message`: append a message with a generated
timestamp (`now`) to the conversation, bump `updated_at`, update the
cached object in place and persist; if the conversation id is unknown the
call logs and returns with the state unchanged.  The Python `role`
argument accepts a string converted through `MessageRole(role)`; a valid
role is modelled as the enum value itself. -/
def add_message (cid : String) (role : MessageRole) (content : String)
    (metadata : List (String × String)) (now : Nat) (st : HistoryManager) :
    HistoryManager :=
  match get_conversation cid st with
  | (none, st') => st'
  | (some c, st') =>
    let c' : Conversation :=
      { c with messages := c.messages ++ [⟨role, content, metadata, now⟩],
               updated_at := now }
    saveConversation c' { st' with cache := setAssoc st'.cache cid c' }

/-- `HistoryManager.get_messages`: project the stored messages into the
OpenAI shape, a `(role string, content)` pair per message, in order. -/
def get_messages (cid : String) (st : HistoryManager) :
    List (String × String) :=
  match (get_conversation cid st).1 with
  | none => []
  | some c => c.messages.map fun m => (m.role.value, m.content)

/-- Looking up the key just written by `setAssoc`. -/
theorem lookup_setAssoc_self {α : Type} (l : List (String × α)) (k : String)
    (v : α) : (setAssoc l k v).lookup k = some v := by
  simp [setAssoc, List.lookup]

/-- One argument record of an `add_message` call: role, content, metadata
and the instant at which the call happens. -/
structure AddCall where
  role : MessageRole
  content : String
  metadata : List (String × String)
  time : Nat
deriving DecidableEq, Repr

/-- The message appended by one `add_message` call. -/
def AddCall.toMessage (q : AddCall) : Message :=
  ⟨q.role, q.content, q.metadata, q.time⟩

/-- Replaying a sequence of `add_message` calls on a manager state. -/
def replayAdds (cid : String) (calls : List AddCall) (st : HistoryManager) :
    HistoryManager :=
  calls.foldl (fun s q => add_message cid q.role q.content q.metadata q.time s) st

/-- `add_message` on a cached conversation keeps it cached, with the new
message appended. -/
theorem add_message_cached (cid : String) (q : AddCall) (st : HistoryManager)
    (c : Conversation) (h : st.cache.lookup cid = some c) :
    (add_message cid q.role q.content q.metadata q.time st).cache.lookup cid
      = some { c with messages := c.messages ++ [q.toMessage],
                      updated_at := q.time } := by
  simp [add_message, get_conversation, h, saveConversation,
    lookup_setAssoc_self, AddCall.toMessage]

/-- `add_message` on a cached conversation, stated on plain arguments. -/
theorem add_message_cached_args (cid : String) (role : MessageRole)
    (content : String) (md : List (String × String)) (now : Nat)
    (st : HistoryManager) (c : Conversation)
    (h : st.cache.lookup cid = some c) :
    (add_message cid role content md now st).cache.lookup cid
      = some { c with messages := c.messages ++ [⟨role, content, md, now⟩],
                      updated_at := now } := by
  simp [add_message, get_conversation, h, saveConversation, lookup_setAssoc_self]

/-- Two consecutive `add_message` calls on a cached conversation append
the two messages in order. -/
theorem add_message_cached_twice (cid : String) (r1 : MessageRole)
    (s1 : String) (m1 : List (String × String)) (t1 : Nat)
    (r2 : MessageRole) (s2 : String) (m2 : List (String × String)) (t2 : Nat)
    (st : HistoryManager) (c : Conversation)
    (h : st.cache.lookup cid = some c) :
    (add_message cid r2 s2 m2 t2 (add_message cid r1 s1 m1 t1 st)).cache.lookup cid
      = some { c with messages := c.messages ++ [⟨r1, s1, m1, t1⟩, ⟨r2, s2, m2, t2⟩],
                      updated_at := t2 } := by
  have h1 := add_message_cached_args cid r1 s1 m1 t1 st c h
  have h2 := add_message_cached_args cid r2 s2 m2 t2 _ _ h1
  rw [h2]
  simp

/-- Replaying calls on a cached conversation appends exactly the called
messages, in call order. -/
theorem replayAdds_cached (cid : String) (calls : List AddCall) :
    ∀ (st : HistoryManager) (c : Conversation),
      st.cache.lookup cid = some c →
      ∃ c', (replayAdds cid calls st).cache.lookup cid = some c'
        ∧ c'.messages = c.messages ++ calls.map AddCall.toMessage := by
  induction calls with
  | nil =>
    intro st c h
    exact ⟨c, by simpa [replayAdds] using h, by simp⟩
  | cons q rest ih =>
    intro st c h
    have hstep := add_message_cached cid q st c h
    obtain ⟨c', hc', hmsgs⟩ :=
      ih (add_message cid q.role q.content q.metadata q.time st) _ hstep
    refine ⟨c', ?_, ?_⟩
    · simpa [replayAdds] using hc'
    · simp [hmsgs]

/-- C1: for every sequence of `add_message` calls on a freshly created
conversation, `get_messages` returns exactly one `(role, content)` entry
per call, in call order, with each entry's role string and content equal
to the arguments of the corresponding call. -/
theorem claim_C1_add_message_order (st : HistoryManager) (cid uid : String)
    (md : List (String × String)) (t0 : Nat) (calls : List AddCall) :
    get_messages cid (replayAdds cid calls (create_conversation cid uid md t0 st))
      = calls.map fun q => (q.role.value, q.content) := by
  have hcache :
      (create_conversation cid uid md t0 st).cache.lookup cid
        = some { id := cid, user_id := uid, messages := [], created_at := t0,
                 updated_at := t0, metadata := md } := by
    simp [create_conversation, saveConversation, lookup_setAssoc_self]
  obtain ⟨c', hc', hmsgs⟩ := replayAdds_cached cid calls _ _ hcache
  simp only [get_messages, get_conversation, hc']
  simp [hmsgs, Function.comp_def, AddCall.toMessage]

/-- C2: saving any `Conversation` to its persisted JSON form and loading
it back through `get_conversation` with an empty in-memory cache yields
the very same `Conversation`, field for field. -/
theorem claim_C2_save_load_roundtrip (d : List (String × Json))
    (c : Conversation) :
    (get_conversation c.id (saveConversation c ⟨[], d⟩)).1 = some c := by
  simp [get_conversation, saveConversation, List.lookup,
    lookup_setAssoc_self, Conversation.roundtrip_conv_json]

/-- C5: `add_message` on a conversation id that is neither cached nor on
disk returns normally and leaves the whole history state unchanged (the
write is logged and dropped, never an error). -/
theorem claim_C5_add_message_unknown_id (cid : String) (role : MessageRole)
    (content : String) (md : List (String × String)) (now : Nat)
    (st : HistoryManager) (hcache : st.cache.lookup cid = none)
    (hdisk : st.disk.lookup cid = none) :
    add_message cid role content md now st = st := by
  simp [add_message, get_conversation, hcache, hdisk]

/-- Witness for C5: on an empty store, adding to a missing conversation
id is a no-op. -/
theorem claim_C5_witness :
    (⟨[], []⟩ : HistoryManager).cache.lookup "missing" = none
    ∧ (⟨[], []⟩ : HistoryManager).disk.lookup "missing" = none
    ∧ add_message "missing" .user "hello" [] 5 ⟨[], []⟩ = ⟨[], []⟩ :=
  ⟨rfl, rfl,
    claim_C5_add_message_unknown_id "missing" .user "hello" [] 5 ⟨[], []⟩ rfl rfl⟩

/-- A stored project record (`PROJECTS[project_id]` in
`src/core/tools.py` / `src/bot/projects.py`): name and description. -/
structure ProjectRecord where
  name : String
  description : String
deriving DecidableEq, Repr

/-- The project store: the `PROJECTS` dict and the `ACTIVE_PROJECT_ID`
pointer (module-level globals in the source). -/
structure ProjectStore where
  projects : List (String × ProjectRecord)
  activeProjectId : Option String
deriving DecidableEq, Repr

/-- The dict returned by `get_project_details` / `get_active_project`:
`{id, name, description, is_active}`. -/
structure ProjectDetails where
  id : String
  name : String
  description : String
  is_active : Bool
deriving DecidableEq, Repr

/-- `create_project(name, description)`: store the record under a freshly
generated uuid (passed in as `pid`) and return the id. -/
def create_project (pid name description : String) (st : ProjectStore) :
    String × ProjectStore :=
  (pid, { st with projects := setAssoc st.projects pid ⟨name, description⟩ })

/-- `delete_project(project_id)`: `None` if the id is unknown; otherwise
remove the record, clear the active pointer if it referenced the deleted
project, and return the success message. -/
def delete_project (pid : String) (st : ProjectStore) :
    Option String × ProjectStore :=
  match st.projects.lookup pid with
  | none => (none, st)
  | some rec =>
    let projects' := st.projects.filter fun kv => kv.1 != pid
    let active' :=
      if st.activeProjectId = some pid then none else st.activeProjectId
    (some ("Project '" ++ rec.name ++ "' (ID: " ++ pid ++ ") has been deleted"),
      { projects := projects', activeProjectId := active' })

/-- `switch_project(project_id)`: `None` if the id is unknown; otherwise
set the active pointer and return the success message. -/
def switch_project (pid : String) (st : ProjectStore) :
    Option String × ProjectStore :=
  match st.projects.lookup pid with
  | none => (none, st)
  | some rec =>
    (some ("Switched to project '" ++ rec.name ++ "' (ID: " ++ pid ++ ")"),
      { st with activeProjectId := some pid })

/-- `get_project_details(project_id)`: `None` if unknown, otherwise the
record with `is_active` comparing the id against the active pointer. -/
def get_project_details (pid : String) (st : ProjectStore) :
    Option ProjectDetails :=
  match st.projects.lookup pid with
  | none => none
  | some rec =>
    some { id := pid, name := rec.name, description := rec.description,
           is_active := st.activeProjectId == some pid }

/-- `get_active_project()`: `None` when no active pointer, otherwise the
details of the active project (`src/core/tools.py` delegates to
`get_project_details`). -/
def get_active_project (st : ProjectStore) : Option ProjectDetails :=
  match st.activeProjectId with
  | none => none
  | some pid => get_project_details pid st

/-- Looking up a key removed by `del d[k]` yields nothing. -/
theorem lookup_filter_ne {α : Type} (l : List (String × α)) (k : String) :
    (l.filter fun kv => kv.1 != k).lookup k = none := by
  induction l with
  | nil => rfl
  | cons kv rest ih =>
    by_cases h : kv.1 = k
    · simp [List.filter, h, ih]
    · simp only [List.filter_cons]
      have hne : (kv.1 != k) = true := by simpa using h
      simp [hne, List.lookup, beq_eq_false_iff_ne.mpr (Ne.symm h), ih]

/-- C4: deleting an existing project that is the active project removes
its record and clears the active pointer, so `get_active_project` then
returns `none`; deleting an existing project that is not active leaves
the active pointer unchanged. -/
theorem claim_C4_delete_project_active (pid : String) (st : ProjectStore)
    (rec : ProjectRecord) (hmem : st.projects.lookup pid = some rec) :
    (st.activeProjectId = some pid →
        (delete_project pid st).2.projects.lookup pid = none
        ∧ (delete_project pid st).2.activeProjectId = none
        ∧ get_active_project (delete_project pid st).2 = none)
    ∧ (st.activeProjectId ≠ some pid →
        (delete_project pid st).2.activeProjectId = st.activeProjectId) := by
  constructor
  · intro hact
    refine ⟨?_, ?_, ?_⟩
    · simp [delete_project, hmem, lookup_filter_ne]
    · simp [delete_project, hmem, hact]
    · simp [delete_project, hmem, hact, get_active_project]
  · intro hact
    simp [delete_project, hmem, hact]

/-- Witness for C4: a two-project store with the first project active;
deleting the active project clears the pointer, deleting the other one
keeps it. -/
theorem claim_C4_witness :
    let stA : ProjectStore :=
      { projects := [("p1", ⟨"Alpha", "first"⟩), ("p2", ⟨"Beta", "second"⟩)],
        activeProjectId := some "p1" }
    (stA.projects.lookup "p1" = some ⟨"Alpha", "first"⟩
      ∧ stA.activeProjectId = some "p1"
      ∧ (delete_project "p1" stA).2.projects.lookup "p1" = none
      ∧ (delete_project "p1" stA).2.activeProjectId = none
      ∧ get_active_project (delete_project "p1" stA).2 = none)
    ∧ (stA.projects.lookup "p2" = some ⟨"Beta", "second"⟩
      ∧ stA.activeProjectId ≠ some "p2"
      ∧ (delete_project "p2" stA).2.activeProjectId = stA.activeProjectId) := by
  intro stA
  have h1 :=
    (claim_C4_delete_project_active "p1" stA ⟨"Alpha", "first"⟩ rfl).1 rfl
  have h2 :=
    (claim_C4_delete_project_active "p2" stA ⟨"Beta", "second"⟩ rfl).2
      (by decide)
  exact ⟨⟨rfl, rfl, h1.1, h1.2.1, h1.2.2⟩, ⟨rfl, by decide, h2⟩⟩

/-- C8: after `create_project(N, D)` returns a fresh id, looking the id up
with `get_project_details` yields `{id, name N, description D,
is_active false}` when no project is active, and the same record with
`is_active true` after `switch_project` on that id. -/
theorem claim_C8_create_then_details (pid name description : String)
    (st : ProjectStore) (hfresh : st.projects.lookup pid = none)
    (hnoactive : st.activeProjectId = none) :
    let res := create_project pid name description st
    res.1 = pid
    ∧ get_project_details pid res.2
        = some { id := pid, name := name, description := description,
                 is_active := false }
    ∧ get_project_details pid (switch_project pid res.2).2
        = some { id := pid, name := name, description := description,
                 is_active := true } := by
  refine ⟨rfl, ?_, ?_⟩
  · simp [create_project, get_project_details, lookup_setAssoc_self, hnoactive]
  · simp [create_project, get_project_details, switch_project,
      lookup_setAssoc_self]

/-- Witness for C8: creating a project in the empty store and reading it
back, before and after switching to it. -/
theorem claim_C8_witness :
    let st0 : ProjectStore := { projects := [], activeProjectId := none }
    (st0.projects.lookup "id1" = none ∧ st0.activeProjectId = none)
    ∧ ((create_project "id1" "Test" "A test" st0).1 = "id1"
      ∧ get_project_details "id1" (create_project "id1" "Test" "A test" st0).2
          = some { id := "id1", name := "Test", description := "A test",
                   is_active := false }
      ∧ get_project_details "id1"
            (switch_project "id1" (create_project "id1" "Test" "A test" st0).2).2
          = some { id := "id1", name := "Test", description := "A test",
                   is_active := true }) := by
  intro st0
  exact ⟨⟨rfl, rfl⟩,
    claim_C8_create_then_details "id1" "Test" "A test" st0 rfl rfl⟩

/-- Modelled from the spec (§3/§4.3): the `ConversationSummary` record of
`core/history/models.py` (not among the provided sources), as built by
`list_conversations`. -/
structure ConversationSummary where
  id : String
  user_id : String
  message_count : Nat
  first_message_at : Nat
  last_message_at : Nat
deriving DecidableEq, Repr

/-- `datetime.fromisoformat(message["timestamp"])` on one serialized
message: any shape other than an object with a timestamp field raises
(modelled as `none`, which skips the file). -/
def tsOf (j : Json) : Option Nat :=
  (j.lookup "timestamp").bind Json.asNum

/-- First/last timestamp derivation of the `list_conversations` loop:
`now` twice when there are no messages, otherwise the timestamps of
`messages[0]` and `messages[-1]`. -/
def firstLastTs (now : Nat) (msgs : List Json) : Option (Nat × Nat) :=
  match msgs with
  | [] => some (now, now)
  | m :: _ =>
    (tsOf m).bind fun f =>
    msgs.getLast?.bind fun lm =>
    (tsOf lm).map fun lt => (f, lt)

/-- The summary-building part of the `list_conversations` loop body: any
raised `KeyError`/parse error is caught by the surrounding `except` and
skips the file (`none`). `messages` defaults to `[]` when absent. -/
def buildSummary (now : Nat) (j : Json) : Option ConversationSummary :=
  (j.lookup "id").bind fun ij =>
  ij.asStr.bind fun id =>
  (j.lookup "user_id").bind fun uj =>
  uj.asStr.bind fun uid =>
  (match j.lookup "messages" with
   | none => some ([] : List Json)
   | some (.arr l) => some l
   | some _ => none).bind fun msgs =>
  (firstLastTs now msgs).map fun (fl : Nat × Nat) =>
  ({ id := id, user_id := uid, message_count := msgs.length,
     first_message_at := fl.1, last_message_at := fl.2 } : ConversationSummary)

/-- One iteration of the `list_conversations` scan over a conversation
file: the `user_id` filter (`if user_id and data.get("user_id") !=
user_id: continue`, where an empty filter string is falsy) followed by
summary building. -/
def scanFile (uid : Option String) (now : Nat) (j : Json) :
    Option ConversationSummary :=
  match uid with
  | none => buildSummary now j
  | some u =>
    if u = "" then buildSummary now j
    else
      match j.lookup "user_id" with
      | some (.str v) => if v = u then buildSummary now j else none
      | _ => none

/-- The sort key relation of `conversations.sort(key=lambda x:
x.last_message_at, reverse=True)`: newest first. -/
def byLastDesc (a b : ConversationSummary) : Prop :=
  b.last_message_at ≤ a.last_message_at

instance : DecidableRel byLastDesc := fun a b =>
  inferInstanceAs (Decidable (b.last_message_at ≤ a.last_message_at))

instance : IsTotal ConversationSummary byLastDesc :=
  ⟨fun a b => (Nat.le_total b.last_message_at a.last_message_at)⟩

instance : IsTrans ConversationSummary byLastDesc :=
  ⟨fun _ _ _ hab hbc => Nat.le_trans hbc hab⟩

/-- `HistoryManager.list_conversations`: scan the conversation files (in
directory-listing order), filter by user id, build summaries, and sort by
last-message timestamp, newest first (Python's stable sort is insertion
sort here). -/
def list_conversations (uid : Option String) (now : Nat)
    (files : List Json) : List ConversationSummary :=
  List.insertionSort byLastDesc (files.filterMap (scanFile uid now))

/-- The summary `list_conversations` derives from a persisted
conversation: message count, and first/last timestamps taken from the
first and last stored message (or the scan instant when there are no
messages). -/
def summaryOf (now : Nat) (c : Conversation) : ConversationSummary :=
  { id := c.id, user_id := c.user_id, message_count := c.messages.length,
    first_message_at := (c.messages.head?.map Message.timestamp).getD now,
    last_message_at := (c.messages.getLast?.map Message.timestamp).getD now }

/-- `getLast?` commutes with `map`. -/
theorem getLast?_map_ts (f : Message → Json) (l : List Message) :
    (l.map f).getLast? = l.getLast?.map f := by
  induction l with
  | nil => rfl
  | cons m rest ih =>
    cases rest with
    | nil => rfl
    | cons m' rest' =>
      simpa [List.getLast?_cons_cons] using ih

/-- The stored timestamp of a serialized message. -/
theorem tsOf_toJson (m : Message) : tsOf m.toJson = some m.timestamp := by
  simp [tsOf, Message.toJson, Json.lookup, List.lookup, Json.asNum]

/-- First/last timestamps over a serialized message list come from the
first and last message. -/
theorem firstLastTs_map (now : Nat) (msgs : List Message) :
    firstLastTs now (msgs.map Message.toJson)
      = some ((msgs.head?.map Message.timestamp).getD now,
              (msgs.getLast?.map Message.timestamp).getD now) := by
  cases msgs with
  | nil => rfl
  | cons m rest =>
    have hsome : ∃ lm, (m :: rest).getLast? = some lm := by
      cases h : (m :: rest).getLast? with
      | none => simp at h
      | some lm => exact ⟨lm, rfl⟩
    obtain ⟨lm, hlm⟩ := hsome
    have hmap : (Message.toJson m :: rest.map Message.toJson).getLast?
        = some lm.toJson := by
      have h := getLast?_map_ts Message.toJson (m :: rest)
      rw [List.map_cons] at h
      rw [h, hlm]
      rfl
    simp [firstLastTs, tsOf_toJson, hmap, hlm]

/-- Field lookups on a persisted conversation file. -/
theorem toJson_lookup_user_id (c : Conversation) :
    c.toJson.lookup "user_id" = some (.str c.user_id) := by
  simp [Conversation.toJson, Json.lookup, List.lookup]

/-- A persisted conversation file always yields its summary. -/
theorem buildSummary_toJson (now : Nat) (c : Conversation) :
    buildSummary now c.toJson = some (summaryOf now c) := by
  simp [buildSummary, Conversation.toJson, Json.lookup, List.lookup,
    Json.asStr, firstLastTs_map, summaryOf]

/-- On a persisted conversation, the scan keeps exactly the files of the
requested (non-empty) user. -/
theorem scanFile_toJson (u : String) (hu : u ≠ "") (now : Nat)
    (c : Conversation) :
    scanFile (some u) now c.toJson
      = if c.user_id = u then some (summaryOf now c) else none := by
  rw [scanFile, if_neg hu, toJson_lookup_user_id]
  by_cases h : c.user_id = u
  · simp only [h, if_pos rfl, buildSummary_toJson, if_pos rfl]
  · simp only [if_neg h]

/-- Scanning the persisted files keeps exactly the matching users'
summaries, in scan order. -/
theorem filterMap_scanFile (u : String) (hu : u ≠ "") (now : Nat)
    (convs : List Conversation) :
    (convs.map Conversation.toJson).filterMap (scanFile (some u) now)
      = (convs.filter fun c => c.user_id == u).map (summaryOf now) := by
  induction convs with
  | nil => rfl
  | cons c rest ih =>
    by_cases h : c.user_id = u
    · simp [scanFile_toJson u hu now c, h, List.filter_cons, ih]
    · simp [scanFile_toJson u hu now c, h, List.filter_cons, ih]

/-- C6: for every set of persisted conversations and non-empty user id
`u`, `list_conversations u` returns summaries of exactly the
conversations whose `user_id` is `u` (first/last timestamps derived from
the first and last stored message), sorted by last-message timestamp
descending. -/
theorem claim_C6_list_conversations (convs : List Conversation) (u : String)
    (hu : u ≠ "") (now : Nat) :
    let res := list_conversations (some u) now (convs.map Conversation.toJson)
    res.Perm ((convs.filter fun c => c.user_id == u).map (summaryOf now))
    ∧ List.Pairwise byLastDesc res
    ∧ ∀ s ∈ res, s.user_id = u := by
  intro res
  have hperm : res.Perm ((convs.filter fun c => c.user_id == u).map (summaryOf now)) := by
    have h0 := List.perm_insertionSort byLastDesc
      ((convs.map Conversation.toJson).filterMap (scanFile (some u) now))
    refine h0.trans ?_
    rw [filterMap_scanFile u hu now convs]
  refine ⟨hperm, ?_, ?_⟩
  · exact List.sorted_insertionSort byLastDesc _
  · intro s hs
    have hmem := hperm.mem_iff.mp hs
    obtain ⟨c, hc, rfl⟩ := List.mem_map.mp hmem
    have := List.of_mem_filter hc
    simpa [summaryOf] using this

/-- Witness for C6: two conversations for alice and one for bob; listing
alice returns exactly alice's two summaries, newest last message
first. -/
theorem claim_C6_witness :
    let a1 : Conversation :=
      { id := "a1", user_id := "alice",
        messages := [⟨.user, "hi", [], 1⟩, ⟨.assistant, "yo", [], 4⟩],
        created_at := 1, updated_at := 4, metadata := [] }
    let a2 : Conversation :=
      { id := "a2", user_id := "alice",
        messages := [⟨.user, "again", [], 7⟩],
        created_at := 7, updated_at := 7, metadata := [] }
    let b1 : Conversation :=
      { id := "b1", user_id := "bob",
        messages := [⟨.user, "hey", [], 9⟩],
        created_at := 9, updated_at := 9, metadata := [] }
    let res := list_conversations (some "alice") 20
      ([a1, b1, a2].map Conversation.toJson)
    res.Perm [summaryOf 20 a1, summaryOf 20 a2]
    ∧ List.Pairwise byLastDesc res
    ∧ ∀ s ∈ res, s.user_id = "alice" := by
  intro a1 a2 b1 res
  have h := claim_C6_list_conversations [a1, b1, a2] "alice" (by decide) 20
  exact ⟨by simpa [a1, a2, b1, List.filter] using h.1, h.2.1, h.2.2⟩

/-- One entry of `message["tool_calls"]` as read by
`OpenAIService.count_tokens`: an optional `function` object with optional
`name` and `arguments` fields. -/
structure OAFunction where
  name : Option String
  arguments : Option String
deriving DecidableEq, Repr

structure OAToolCall where
  function : Option OAFunction
deriving DecidableEq, Repr

/-- A message dict as consumed by `OpenAIService.count_tokens` /
`limit_messages_by_tokens`: each field is `none` when the key is absent
(`"k" in message` is false). A present-but-`None` content is modelled as
absent, matching its falsiness. -/
structure OAMsg where
  role : Option String
  content : Option String
  name : Option String
  tool_calls : Option (List OAToolCall)
deriving DecidableEq, Repr

/-- Tokens contributed by the optional tool calls of one message. -/
def toolCallTokens (enc : String → Nat) (tc : OAToolCall) : Nat :=
  match tc.function with
  | none => 0
  | some f =>
    (match f.name with | some n => enc n | none => 0)
    + (match f.arguments with | some a => enc a | none => 0)

/-- Tokens contributed by one message in `count_tokens`: 4 for the
framing, the encoded content when present and non-empty, the encoded
name when present, and the tool-call function names and arguments. -/
def msgTokens (enc : String → Nat) (m : OAMsg) : Nat :=
  4
  + (match m.content with
     | some c => if c = "" then 0 else enc c
     | none => 0)
  + (match m.name with | some n => enc n | none => 0)
  + (match m.tool_calls with
     | some tcs => (tcs.map (toolCallTokens enc)).sum
     | none => 0)

/-- `OpenAIService.count_tokens`: sum of the per-message tokens plus 2
for the reply priming, with the tokenizer abstracted as `enc`. -/
def count_tokens (enc : String → Nat) (messages : List OAMsg) : Nat :=
  (messages.map (msgTokens enc)).sum + 2

/-- The `while` loop of `limit_messages_by_tokens`: pop the oldest
remaining non-system message while any remain and the combined count
still exceeds the budget. -/
def dropOldest (enc : String → Nat) (maxTokens : Nat) (system : List OAMsg) :
    List OAMsg → List OAMsg
  | [] => []
  | m :: ms =>
    if maxTokens < count_tokens enc (system ++ (m :: ms)) then
      dropOldest enc maxTokens system ms
    else m :: ms

/-- `OpenAIService.limit_messages_by_tokens`: return the input when it is
empty or already within the budget; otherwise separate the system
messages (when `keep_system_messages`), drop the oldest other messages
until the combination fits or none remain, and return system messages
followed by the remaining suffix. -/
def limit_messages_by_tokens (enc : String → Nat) (messages : List OAMsg)
    (maxTokens : Nat) (keep_system_messages : Bool) : List OAMsg :=
  if messages = [] then []
  else if count_tokens enc messages ≤ maxTokens then messages
  else
    let system :=
      if keep_system_messages then
        messages.filter fun m => m.role == some "system"
      else []
    let other :=
      if keep_system_messages then
        messages.filter fun m => !(m.role == some "system")
      else messages
    system ++ dropOldest enc maxTokens system other

/-- Appending messages can only increase the token count. -/
theorem count_tokens_append_ge (enc : String → Nat) (s l : List OAMsg) :
    count_tokens enc s ≤ count_tokens enc (s ++ l) := by
  simp only [count_tokens, List.map_append, List.sum_append]
  omega

/-- The drop loop returns a suffix of its input, and stops only when the
combination fits or nothing is left. -/
theorem dropOldest_spec (enc : String → Nat) (maxTokens : Nat)
    (system : List OAMsg) (l : List OAMsg) :
    ∃ k, dropOldest enc maxTokens system l = l.drop k
      ∧ (count_tokens enc (system ++ l.drop k) ≤ maxTokens ∨ l.drop k = []) := by
  induction l with
  | nil => exact ⟨0, rfl, Or.inr rfl⟩
  | cons m ms ih =>
    by_cases h : maxTokens < count_tokens enc (system ++ (m :: ms))
    · obtain ⟨k, hk, hfit⟩ := ih
      exact ⟨k + 1, by simpa [dropOldest, h] using hk, hfit⟩
    · refine ⟨0, by simp [dropOldest, h], Or.inl ?_⟩
      simp only [List.drop_zero]
      omega

/-- When the system messages alone exceed the budget, the loop drops
every other message. -/
theorem dropOldest_all (enc : String → Nat) (maxTokens : Nat)
    (system : List OAMsg) (hsys : maxTokens < count_tokens enc system) :
    ∀ l, dropOldest enc maxTokens system l = [] := by
  intro l
  induction l with
  | nil => rfl
  | cons m ms ih =>
    have h : maxTokens < count_tokens enc (system ++ (m :: ms)) :=
      lt_of_lt_of_le hsys (count_tokens_append_ge enc system (m :: ms))
    simp [dropOldest, h, ih]

/-- C10: with `keep_system_messages = true`, `limit_messages_by_tokens`
returns the input unchanged when it fits the budget; otherwise it returns
all system messages (in original relative order) moved to the front
followed by a drop-oldest suffix of the non-system messages that makes
the total fit or is empty — and when the system messages alone exceed the
budget, the result is exactly the system messages and still exceeds it. -/
theorem claim_C10_limit_messages (enc : String → Nat) (messages : List OAMsg)
    (maxTokens : Nat) :
    let system := messages.filter fun m => m.role == some "system"
    let other := messages.filter fun m => !(m.role == some "system")
    let res := limit_messages_by_tokens enc messages maxTokens true
    (count_tokens enc messages ≤ maxTokens → res = messages)
    ∧ (maxTokens < count_tokens enc messages →
        ∃ k, res = system ++ other.drop k
          ∧ (count_tokens enc res ≤ maxTokens ∨ other.drop k = []))
    ∧ (maxTokens < count_tokens enc messages →
        maxTokens < count_tokens enc system →
        res = system ∧ maxTokens < count_tokens enc res) := by
  intro system other res
  refine ⟨?_, ?_, ?_⟩
  · intro hfit
    by_cases hnil : messages = []
    · simp [res, limit_messages_by_tokens, hnil]
    · simp [res, limit_messages_by_tokens, hnil, hfit]
  · intro hover
    by_cases hnil : messages = []
    · refine ⟨0, ?_, Or.inr (by simp [other, hnil])⟩
      simp [res, limit_messages_by_tokens, hnil, system, other]
    obtain ⟨k, hk, hfit⟩ := dropOldest_spec enc maxTokens system other
    refine ⟨k, ?_, ?_⟩
    · simp [res, limit_messages_by_tokens, hnil, Nat.not_le_of_lt hover, hk,
        system, other]
    · cases hfit with
      | inl h =>
        left
        have : res = system ++ other.drop k := by
          simp [res, limit_messages_by_tokens, hnil, Nat.not_le_of_lt hover,
            hk, system, other]
        rw [this]
        exact h
      | inr h => exact Or.inr h
  · intro hover hsys
    by_cases hnil : messages = []
    · have hres : res = system := by
        simp [res, limit_messages_by_tokens, hnil, system]
      refine ⟨hres, ?_⟩
      rw [hres]
      exact hsys
    have hdrop := dropOldest_all enc maxTokens system hsys other
    have hres : res = system := by
      simp [res, limit_messages_by_tokens, hnil, Nat.not_le_of_lt hover,
        hdrop, system, other]
    exact ⟨hres, by rw [hres]; exact hsys⟩

/-- Witness for C10: with a length tokenizer, a three-message
conversation (user, system, user) within a budget of 60 is returned
unchanged, and under a budget of 30 the system message moves to the front
and the oldest user message is dropped. -/
theorem claim_C10_witness :
    (count_tokens String.length
        [⟨some "user", some "first question here", none, none⟩,
         ⟨some "system", some "be helpful", none, none⟩,
         ⟨some "user", some "second", none, none⟩] ≤ 60
      ∧ limit_messages_by_tokens String.length
        [⟨some "user", some "first question here", none, none⟩,
         ⟨some "system", some "be helpful", none, none⟩,
         ⟨some "user", some "second", none, none⟩] 60 true
        = [⟨some "user", some "first question here", none, none⟩,
           ⟨some "system", some "be helpful", none, none⟩,
           ⟨some "user", some "second", none, none⟩])
    ∧ limit_messages_by_tokens String.length
        [⟨some "user", some "first question here", none, none⟩,
         ⟨some "system", some "be helpful", none, none⟩,
         ⟨some "user", some "second", none, none⟩] 30 true
        = [⟨some "system", some "be helpful", none, none⟩,
           ⟨some "user", some "second", none, none⟩] :=
  ⟨⟨by decide,
    (claim_C10_limit_messages String.length
      [⟨some "user", some "first question here", none, none⟩,
       ⟨some "system", some "be helpful", none, none⟩,
       ⟨some "user", some "second", none, none⟩] 60).1 (by decide)⟩,
   by decide⟩

/-- A Python tool return value in `src/bot/handlers.py`: the project
tools return `None`, a string, or the project-details dict. -/
inductive PyResult where
  | pynone
  | pystr (s : String)
  | pydict (id name description : String) (is_active : Bool)
deriving DecidableEq, Repr

/-- Python `str()` of an optional value interpolated in an f-string
(`{args.get('project_id')}` prints `None` when absent). -/
def optStr : Option String → String
  | some s => s
  | none => "None"

/-- Python `str()` of a tool result. -/
def pyStr : PyResult → String
  | .pynone => "None"
  | .pystr s => s
  | .pydict i n d a =>
    "\x7b'id': '" ++ i ++ "', 'name': '" ++ n ++ "', 'description': '" ++ d
      ++ "', 'is_active': " ++ (if a then "True" else "False") ++ "\x7d"

/-- `json.dumps` of a decoded argument dict; the exact rendering is
immaterial to the claims, only that it is a fixed function of the
arguments. -/
def dumpArgs (args : List (String × String)) : String :=
  "\x7b" ++ String.intercalate ", "
    (args.map fun kv => "\"" ++ kv.1 ++ "\": \"" ++ kv.2 ++ "\"") ++ "\x7d"

/-- `json.dumps` of a dict-shaped tool result, `str()` otherwise
(`result_content` in `process_message`). -/
def resultContent : PyResult → String
  | .pydict i n d a =>
    "\x7b\"id\": \"" ++ i ++ "\", \"name\": \"" ++ n ++ "\", \"description\": \""
      ++ d ++ "\", \"is_active\": " ++ (if a then "true" else "false") ++ "\x7d"
  | r => pyStr r

/-- `generate_nl_response` of `src/bot/handlers.py`: a natural-language
reply from the tool name, arguments and result. -/
def generate_nl_response (tool_name : String) (args : List (String × String))
    (result : PyResult) : String :=
  match result with
  | .pynone =>
    if tool_name = "list_projects" then
      "You don't have any projects yet. Would you like to create one?"
    else if tool_name = "delete_project" then
      "I couldn't find a project with ID " ++ optStr (args.lookup "project_id") ++ "."
    else if tool_name = "switch_project" then
      "I couldn't find a project with ID " ++ optStr (args.lookup "project_id") ++ "."
    else if tool_name = "get_project_details" then
      "I couldn't find a project with ID " ++ optStr (args.lookup "project_id") ++ "."
    else if tool_name = "get_active_project" then
      "You don't have an active project. Would you like to create one or switch to an existing one?"
    else
      "I couldn't complete that action. Please try again."
  | r =>
    if tool_name = "list_projects" then
      "Here are your projects:\n\n" ++ pyStr r
    else if tool_name = "delete_project" then
      pyStr r
    else if tool_name = "switch_project" then
      pyStr r
    else if tool_name = "create_project" then
      "I've created a new project with ID: " ++ pyStr r
    else if tool_name = "get_project_details" then
      match r with
      | .pydict i n d a =>
        "Project details:" ++ (if a then " (ACTIVE)" else "") ++ "\nID: " ++ i
          ++ "\nName: " ++ n ++ "\nDescription: " ++ d
      | _ => pyStr r
    else if tool_name = "get_active_project" then
      match r with
      | .pydict i n d _ =>
        "Your active project is:\nID: " ++ i ++ "\nName: " ++ n
          ++ "\nDescription: " ++ d
      | _ => pyStr r
    else
      pyStr r

/-- `tool_call.function` in the first API response. -/
structure ApiFunction where
  name : String
  arguments : String
deriving DecidableEq, Repr

/-- One tool call named by the first API response. -/
structure ApiToolCall where
  id : String
  function : ApiFunction
deriving DecidableEq, Repr

/-- `response.choices[0].message`: text content (possibly absent or
empty, both falsy) and the named tool calls (an absent/`None` list is the
empty list, both falsy). -/
structure ApiResponseMessage where
  content : Option String
  tool_calls : List ApiToolCall
deriving DecidableEq, Repr

/-- The fixed user-facing apology of the outermost `except` in
`process_message`. -/
def apologyReply : String :=
  "I encountered an error while processing your request. Please try again."

/-- The fallback when the model returns neither content nor tool calls. -/
def notSureReply : String := "I'm not sure how to help with that."

/-- The system instruction seeded into a newly created conversation. -/
def systemPrompt : String :=
  "You are an AI assistant that helps users manage projects. "
    ++ "Your task is to understand the user's intent and call the appropriate "
    ++ "function to handle their request."

/-- `process_message` of `src/bot/handlers.py`.  The OpenAI call is the
function `api` (raising modelled as `Except.error`), `jsonLoads` decodes
the tool-call argument string (`json.loads`, which can raise), `tools` is
the `TOOLS` name→callable dict (a callable may raise, e.g. on a keyword
mismatch), `freshId` is the uuid generated for a new conversation and
`now` the current instant.  Each `Except.error` propagates to the
outermost `try`/`except`, which returns the fixed apology string; history
writes made before the raise persist. -/
def process_message
    (api : List (String × String) → Except String ApiResponseMessage)
    (jsonLoads : String → Except String (List (String × String)))
    (tools : List (String × (List (String × String) → Except String PyResult)))
    (message user_id : String) (conversation_id : Option String)
    (freshId : String) (now : Nat) (st : HistoryManager) :
    String × HistoryManager :=
  let cidSt :=
    match conversation_id with
    | some c => (c, st)
    | none =>
      let s := create_conversation freshId user_id [] now st
      (freshId, add_message freshId .system systemPrompt [] now s)
  let cid := cidSt.1
  let st2 := add_message cid .user message [] now cidSt.2
  let msgs := get_messages cid st2
  match api msgs with
  | .error _ => (apologyReply, st2)
  | .ok rm =>
    let st3 :=
      match rm.content with
      | some c => if c = "" then st2 else add_message cid .assistant c [] now st2
      | none => st2
    match rm.tool_calls with
    | [] =>
      (match rm.content with
       | some c => if c = "" then notSureReply else c
       | none => notSureReply, st3)
    | tc :: _ =>
      match jsonLoads tc.function.arguments with
      | .error _ => (apologyReply, st3)
      | .ok fargs =>
        let st4 := add_message cid .tool
          ("Function: " ++ tc.function.name ++ "\nArguments: " ++ dumpArgs fargs)
          [("function_name", tc.function.name), ("function_args", dumpArgs fargs)]
          now st3
        match tools.lookup tc.function.name with
        | some f =>
          match f fargs with
          | .error _ => (apologyReply, st4)
          | .ok result =>
            let st5 := add_message cid .tool ("Result: " ++ resultContent result)
              [("function_name", tc.function.name), ("result", resultContent result)]
              now st4
            let nl := generate_nl_response tc.function.name fargs result
            (nl, add_message cid .assistant nl [] now st5)
        | none =>
          let errMsg :=
            "I'm sorry, I don't know how to perform that action: "
              ++ tc.function.name
          (errMsg, add_message cid .assistant errMsg [] now st4)

/-- C9: any exception escaping the orchestration is caught at the
outermost level and converted into the fixed apology string — whether the
first model-API call raises, the tool-call argument decoding raises, or
the executed tool body raises, `process_message` returns the apology
rather than propagating (and, being a total function, never lets an
exception reach the chat adapter). -/
theorem claim_C9_outer_catch
    (jsonLoads : String → Except String (List (String × String)))
    (tools : List (String × (List (String × String) → Except String PyResult)))
    (message user_id : String) (conversation_id : Option String)
    (freshId : String) (now : Nat) (st : HistoryManager) (e : String) :
    ((process_message (fun _ => .error e) jsonLoads tools message user_id
        conversation_id freshId now st).1 = apologyReply)
    ∧ (∀ (rm : ApiResponseMessage) (tc : ApiToolCall) (rest : List ApiToolCall),
        rm.tool_calls = tc :: rest →
        jsonLoads tc.function.arguments = .error e →
        (process_message (fun _ => .ok rm) jsonLoads tools message user_id
          conversation_id freshId now st).1 = apologyReply)
    ∧ (∀ (rm : ApiResponseMessage) (tc : ApiToolCall) (rest : List ApiToolCall)
        (fargs : List (String × String))
        (f : List (String × String) → Except String PyResult),
        rm.tool_calls = tc :: rest →
        jsonLoads tc.function.arguments = .ok fargs →
        tools.lookup tc.function.name = some f →
        f fargs = .error e →
        (process_message (fun _ => .ok rm) jsonLoads tools message user_id
          conversation_id freshId now st).1 = apologyReply) := by
  refine ⟨?_, ?_, ?_⟩
  · simp [process_message]
  · intro rm tc rest htc hload
    simp [process_message, htc, hload]
  · intro rm tc rest fargs f htc hload hlookup hf
    simp [process_message, htc, hload, hlookup, hf]

/-- Witness for C9: a failing API call, a failing argument decode and a
failing tool each yield the apology on a concrete empty store. -/
theorem claim_C9_witness :
    ((process_message (fun _ => .error "boom") (fun _ => .ok []) []
        "hi" "u" none "conv1" 3 ⟨[], []⟩).1 = apologyReply)
    ∧ ((process_message
        (fun _ => .ok ⟨none, [⟨"call1", ⟨"create_project", "bad"⟩⟩]⟩)
        (fun _ => .error "json") [] "hi" "u" none "conv1" 3 ⟨[], []⟩).1
      = apologyReply)
    ∧ ((process_message
        (fun _ => .ok ⟨none, [⟨"call1", ⟨"t", "a"⟩⟩]⟩)
        (fun _ => .ok []) [("t", fun _ => .error "die")]
        "hi" "u" none "conv1" 3 ⟨[], []⟩).1 = apologyReply) :=
  ⟨(claim_C9_outer_catch (fun _ => .ok []) [] "hi" "u" none "conv1" 3
      ⟨[], []⟩ "boom").1,
   (claim_C9_outer_catch (fun _ => .error "json") [] "hi" "u" none "conv1" 3
      ⟨[], []⟩ "json").2.1 ⟨none, [⟨"call1", ⟨"create_project", "bad"⟩⟩]⟩
      ⟨"call1", ⟨"create_project", "bad"⟩⟩ [] rfl rfl,
   (claim_C9_outer_catch (fun _ => .ok []) [("t", fun _ => .error "die")]
      "hi" "u" none "conv1" 3 ⟨[], []⟩ "die").2.2
      ⟨none, [⟨"call1", ⟨"t", "a"⟩⟩]⟩ ⟨"call1", ⟨"t", "a"⟩⟩ [] []
      (fun _ => .error "die") rfl rfl rfl rfl⟩

/-- One tool call of a batch, as handed to the tool service: call id,
tool name and decoded argument dict. -/
structure ToolCallRequest where
  id : String
  name : String
  args : List (String × String)
deriving DecidableEq, Repr

/-- Modelled from the spec: the structured per-call outcome produced by
the tool service (`execute_tool_call` of
`ai_tools_core/services/tool_service.py`, whose implementation is not
among the provided sources — only its tests are): success is
`{tool, status: "success", data: result}`, failure is
`{tool, status: "error", error: message, args}`. -/
structure ToolCallResponse where
  tool : String
  status : String
  data : Option String
  error : Option String
  args : List (String × String)
deriving DecidableEq, Repr

/-- Modelled from the spec (§4.4 step 5, §7): `execute_tool_call` of the
tool service, which is not among the provided sources.  It first records
a `tool`-role history entry describing the requested call (before
execution, via `add_tool_call_message` of
`src/core/services/openai_message_service.py`); an unregistered name
yields the structured "Unknown tool" error and an error entry; a raising
tool body is caught and yields the error shape; a normal return yields
the success shape and a result entry.  Nothing raises. -/
def execute_tool_call (cid callId name : String)
    (args : List (String × String))
    (registry : List (String × (List (String × String) → Except String String)))
    (now : Nat) (st : HistoryManager) : ToolCallResponse × HistoryManager :=
  let st1 := add_message cid .tool
    ("Function: " ++ name ++ "\nArguments: " ++ dumpArgs args)
    [("name", name), ("arguments", dumpArgs args), ("tool_call_id", callId)]
    now st
  match registry.lookup name with
  | none =>
    let err := "Unknown tool: " ++ name
    let st2 := add_message cid .tool ("Error: " ++ err)
      [("name", name), ("arguments", dumpArgs args), ("error", err),
       ("tool_call_id", callId)] now st1
    ({ tool := name, status := "error", data := none, error := some err,
       args := args }, st2)
  | some f =>
    match f args with
    | .ok r =>
      let st2 := add_message cid .tool r
        [("name", name), ("arguments", dumpArgs args), ("result", r),
         ("tool_call_id", callId)] now st1
      ({ tool := name, status := "success", data := some r, error := none,
         args := args }, st2)
    | .error e =>
      let st2 := add_message cid .tool ("Error: " ++ e)
        [("name", name), ("arguments", dumpArgs args), ("error", e),
         ("tool_call_id", callId)] now st1
      ({ tool := name, status := "error", data := none, error := some e,
         args := args }, st2)

/-- Modelled from the spec (§4.4 step 5): the batch loop of
`process_tool_calls` of the tool service (not among the provided
sources): execute every tool call of the batch in the order returned by
the API, collecting the structured outcomes; a failing or unknown tool
never aborts the sibling calls. -/
def run_tool_calls (cid : String) (calls : List ToolCallRequest)
    (registry : List (String × (List (String × String) → Except String String)))
    (now : Nat) (st : HistoryManager) :
    List ToolCallResponse × HistoryManager :=
  match calls with
  | [] => ([], st)
  | tc :: rest =>
    let r := execute_tool_call cid tc.id tc.name tc.args registry now st
    let rs := run_tool_calls cid rest registry now r.2
    (r.1 :: rs.1, rs.2)

/-- Modelled from the spec (§4.4 step 6): after the batch, one system
entry carrying all structured outcomes instructs the model to produce a
single coherent reply (`add_system_message_with_tool_responses` of
`src/core/services/openai_message_service.py`), and a second, tool-free
API call produces the one final text. -/
def tool_calls_turn (generate : List (String × String) → String)
    (cid : String) (calls : List ToolCallRequest)
    (registry : List (String × (List (String × String) → Except String String)))
    (now : Nat) (st : HistoryManager) : String × HistoryManager :=
  let rs := run_tool_calls cid calls registry now st
  let batch := String.intercalate ", " (rs.1.map fun r =>
    r.tool ++ ": " ++ r.status)
  let st2 := add_message cid .system
    ("Tool response data: " ++ batch
      ++ "\n\nPlease format a SINGLE, COHERENT response to the user based on ALL this data. Avoid repetition. Respond in the same language the user is using.")
    [] now rs.2
  (generate (get_messages cid st2), st2)

/-- The structured outcome of one call is a function of the call and the
registry alone. -/
def responseOf (registry : List (String × (List (String × String) → Except String String)))
    (tc : ToolCallRequest) : ToolCallResponse :=
  match registry.lookup tc.name with
  | none =>
    { tool := tc.name, status := "error", data := none,
      error := some ("Unknown tool: " ++ tc.name), args := tc.args }
  | some f =>
    match f tc.args with
    | .ok r =>
      { tool := tc.name, status := "success", data := some r, error := none,
        args := tc.args }
    | .error e =>
      { tool := tc.name, status := "error", data := none, error := some e,
        args := tc.args }

/-- `execute_tool_call` returns `responseOf` and appends exactly two
entries to a cached conversation. -/
theorem execute_tool_call_spec (cid callId name : String)
    (args : List (String × String))
    (registry : List (String × (List (String × String) → Except String String)))
    (now : Nat) (st : HistoryManager) (c : Conversation)
    (hc : st.cache.lookup cid = some c) :
    (execute_tool_call cid callId name args registry now st).1
      = responseOf registry ⟨callId, name, args⟩
    ∧ ∃ c', (execute_tool_call cid callId name args registry now st).2.cache.lookup cid
        = some c' ∧ c'.messages.length = c.messages.length + 2 := by
  cases hreg : registry.lookup name with
  | none =>
    have h2 := add_message_cached_twice cid
      .tool ("Function: " ++ name ++ "\nArguments: " ++ dumpArgs args)
      [("name", name), ("arguments", dumpArgs args), ("tool_call_id", callId)] now
      .tool ("Error: " ++ ("Unknown tool: " ++ name))
      [("name", name), ("arguments", dumpArgs args),
       ("error", "Unknown tool: " ++ name), ("tool_call_id", callId)] now
      st c hc
    refine ⟨by simp [execute_tool_call, hreg, responseOf], ?_⟩
    exact ⟨_, by simp only [execute_tool_call, hreg]; exact h2, by simp⟩
  | some f =>
    cases hf : f args with
    | ok r =>
      have h2 := add_message_cached_twice cid
        .tool ("Function: " ++ name ++ "\nArguments: " ++ dumpArgs args)
        [("name", name), ("arguments", dumpArgs args), ("tool_call_id", callId)] now
        .tool r
        [("name", name), ("arguments", dumpArgs args), ("result", r),
         ("tool_call_id", callId)] now
        st c hc
      refine ⟨by simp [execute_tool_call, hreg, hf, responseOf], ?_⟩
      exact ⟨_, by simp only [execute_tool_call, hreg, hf]; exact h2, by simp⟩
    | error e =>
      have h2 := add_message_cached_twice cid
        .tool ("Function: " ++ name ++ "\nArguments: " ++ dumpArgs args)
        [("name", name), ("arguments", dumpArgs args), ("tool_call_id", callId)] now
        .tool ("Error: " ++ e)
        [("name", name), ("arguments", dumpArgs args), ("error", e),
         ("tool_call_id", callId)] now
        st c hc
      refine ⟨by simp [execute_tool_call, hreg, hf, responseOf], ?_⟩
      exact ⟨_, by simp only [execute_tool_call, hreg, hf]; exact h2, by simp⟩

/-- The structured outcome always names the call's tool and arguments. -/
theorem responseOf_tool_args
    (registry : List (String × (List (String × String) → Except String String)))
    (tc : ToolCallRequest) :
    (responseOf registry tc).tool = tc.name
    ∧ (responseOf registry tc).args = tc.args := by
  cases hreg : registry.lookup tc.name with
  | none => simp [responseOf, hreg]
  | some f => cases hf : f tc.args <;> simp [responseOf, hreg, hf]

/-- The outcome of one executed call does not depend on the history
state. -/
theorem execute_tool_call_fst (cid callId name : String)
    (args : List (String × String))
    (registry : List (String × (List (String × String) → Except String String)))
    (now : Nat) (st : HistoryManager) :
    (execute_tool_call cid callId name args registry now st).1
      = responseOf registry ⟨callId, name, args⟩ := by
  cases hreg : registry.lookup name with
  | none => simp [execute_tool_call, responseOf, hreg]
  | some f => cases hf : f args <;> simp [execute_tool_call, responseOf, hreg, hf]

/-- The batch loop produces one structured outcome per call, in order. -/
theorem run_tool_calls_responses (cid : String) (calls : List ToolCallRequest)
    (registry : List (String × (List (String × String) → Except String String)))
    (now : Nat) :
    ∀ (st : HistoryManager),
      (run_tool_calls cid calls registry now st).1
        = calls.map (responseOf registry) := by
  induction calls with
  | nil => intro st; rfl
  | cons tc rest ih =>
    intro st
    simp [run_tool_calls, execute_tool_call_fst, ih]

/-- The batch loop appends two history entries per executed call. -/
theorem run_tool_calls_cache (cid : String) (calls : List ToolCallRequest)
    (registry : List (String × (List (String × String) → Except String String)))
    (now : Nat) :
    ∀ (st : HistoryManager) (c : Conversation),
      st.cache.lookup cid = some c →
      ∃ c', (run_tool_calls cid calls registry now st).2.cache.lookup cid
          = some c'
        ∧ c'.messages.length = c.messages.length + 2 * calls.length := by
  induction calls with
  | nil =>
    intro st c hc
    exact ⟨c, hc, by simp⟩
  | cons tc rest ih =>
    intro st c hc
    obtain ⟨-, c1, hc1, hlen1⟩ :=
      execute_tool_call_spec cid tc.id tc.name tc.args registry now st c hc
    obtain ⟨c', hc', hlen'⟩ :=
      ih (execute_tool_call cid tc.id tc.name tc.args registry now st).2 c1 hc1
    refine ⟨c', ?_, ?_⟩
    · simpa [run_tool_calls] using hc'
    · rw [hlen', hlen1]
      simp only [List.length_cons]
      ring

/-- C3: when the first model call names one or more tool calls, the
orchestrator records and executes every call of the batch, in API order —
the structured outcomes are exactly one per call, in order, each carrying
its call's tool name and arguments — and each call yields its own pair of
history entries (intent and outcome) on the conversation. -/
theorem claim_C3_batch_executes_all (cid : String)
    (calls : List ToolCallRequest)
    (registry : List (String × (List (String × String) → Except String String)))
    (now : Nat) (st : HistoryManager) :
    (run_tool_calls cid calls registry now st).1
        = calls.map (responseOf registry)
    ∧ ((run_tool_calls cid calls registry now st).1.map fun r => (r.tool, r.args))
        = (calls.map fun tc => (tc.name, tc.args))
    ∧ ∀ c, st.cache.lookup cid = some c →
        ∃ c', (run_tool_calls cid calls registry now st).2.cache.lookup cid
            = some c'
          ∧ c'.messages.length = c.messages.length + 2 * calls.length := by
  refine ⟨run_tool_calls_responses cid calls registry now st, ?_,
    fun c hc => run_tool_calls_cache cid calls registry now st c hc⟩
  rw [run_tool_calls_responses cid calls registry now st, List.map_map]
  refine List.map_congr_left ?_
  intro tc _
  have h := responseOf_tool_args registry tc
  simp [Function.comp_def, h.1, h.2]

/-- Witness for C3: a two-call batch (one known, one unknown tool) yields
two ordered structured outcomes and four new history entries. -/
theorem claim_C3_witness :
    let conv0 : Conversation :=
      { id := "conv", user_id := "u", messages := [], created_at := 0,
        updated_at := 0, metadata := [] }
    let st0 : HistoryManager := { cache := [("conv", conv0)], disk := [] }
    let reg : List (String × (List (String × String) → Except String String)) :=
      [("echo", fun args => .ok (dumpArgs args))]
    let calls : List ToolCallRequest :=
      [⟨"c1", "echo", [("k", "v")]⟩, ⟨"c2", "missing", []⟩]
    ((run_tool_calls "conv" calls reg 7 st0).1.map fun r => (r.tool, r.args))
        = [("echo", [("k", "v")]), ("missing", ([] : List (String × String)))]
    ∧ ∃ c', (run_tool_calls "conv" calls reg 7 st0).2.cache.lookup "conv"
          = some c' ∧ c'.messages.length = 0 + 2 * 2 := by
  intro conv0 st0 reg calls
  have h := claim_C3_batch_executes_all "conv" calls reg 7 st0
  refine ⟨?_, h.2.2 _ rfl⟩
  rw [h.2.1]
  rfl

/-- C7: a tool call naming a tool absent from the registry yields the
structured error `{tool, status: "error", error: "Unknown tool: <name>",
args}`, records an error history entry, and does not raise — the batch
still completes with one outcome per call. -/
theorem claim_C7_unknown_tool (cid callId name : String)
    (args : List (String × String))
    (registry : List (String × (List (String × String) → Except String String)))
    (now : Nat) (st : HistoryManager)
    (habsent : registry.lookup name = none) :
    (execute_tool_call cid callId name args registry now st).1
      = { tool := name, status := "error", data := none,
          error := some ("Unknown tool: " ++ name), args := args }
    ∧ (∀ c, st.cache.lookup cid = some c →
        ∃ c', (execute_tool_call cid callId name args registry now st).2.cache.lookup cid
            = some c'
          ∧ c'.messages.getLast? = some
              ⟨.tool, "Error: " ++ ("Unknown tool: " ++ name),
               [("name", name), ("arguments", dumpArgs args),
                ("error", "Unknown tool: " ++ name), ("tool_call_id", callId)],
               now⟩)
    ∧ ∀ (calls : List ToolCallRequest),
        (run_tool_calls cid (⟨callId, name, args⟩ :: calls) registry now st).1.length
          = calls.length + 1 := by
  refine ⟨by simp [execute_tool_call, habsent], ?_, ?_⟩
  · intro c hc
    have h2 := add_message_cached_twice cid
      .tool ("Function: " ++ name ++ "\nArguments: " ++ dumpArgs args)
      [("name", name), ("arguments", dumpArgs args), ("tool_call_id", callId)] now
      .tool ("Error: " ++ ("Unknown tool: " ++ name))
      [("name", name), ("arguments", dumpArgs args),
       ("error", "Unknown tool: " ++ name), ("tool_call_id", callId)] now
      st c hc
    exact ⟨_, by simp only [execute_tool_call, habsent]; exact h2, by simp⟩
  · intro calls
    rw [run_tool_calls_responses cid (⟨callId, name, args⟩ :: calls)
      registry now st]
    simp

/-- Witness for C7: executing an unknown tool on a cached conversation
produces the structured error, an error entry, and a completed one-call
batch. -/
theorem claim_C7_witness :
    let conv1 : Conversation :=
      { id := "conv", user_id := "u", messages := [], created_at := 0,
        updated_at := 0, metadata := [] }
    let st0 : HistoryManager := { cache := [("conv", conv1)], disk := [] }
    ((execute_tool_call "conv" "c9" "ghost" [("x", "1")] [] 4 st0).1
      = { tool := "ghost", status := "error", data := none,
          error := some ("Unknown tool: ghost"), args := [("x", "1")] })
    ∧ (∃ c', (execute_tool_call "conv" "c9" "ghost" [("x", "1")] [] 4 st0).2.cache.lookup "conv"
          = some c'
        ∧ c'.messages.getLast? = some
            ⟨.tool, "Error: " ++ ("Unknown tool: ghost"),
             [("name", "ghost"), ("arguments", dumpArgs [("x", "1")]),
              ("error", "Unknown tool: ghost"), ("tool_call_id", "c9")], 4⟩)
    ∧ (run_tool_calls "conv" [⟨"c9", "ghost", [("x", "1")]⟩] [] 4 st0).1.length
        = 1 := by
  intro conv1 st0
  have h := claim_C7_unknown_tool "conv" "c9" "ghost" [("x", "1")] [] 4 st0 rfl
  exact ⟨h.1, h.2.1 _ rfl, h.2.2 []⟩

end AIToolsCore
